import Mathlib

/-!
Verification of the Kuboid backend (RAG ingestion/retrieval service and
analytics agent) against its natural-language specification.

The Python sources are shallowly embedded: pure fragments become Lean
functions, external effects (Qdrant scroll/search, Supabase tables, the
completion service) become explicit parameters or oracle functions, and
Python truthiness on optional strings is modelled by `truthy`.  Machine
floats that only feed comparisons (cosine similarity, fuzzy ratio) are
abstracted as rational-valued parameters; every property proved below is
independent of their values.
-/

namespace Kuboid

/-- Python truthiness for an optional string: `None` and `""` are falsy. -/
def truthy : Option String → Bool
  | none => false
  | some s => !(s == "")

/-- Python `str(x)` applied to an optional string (`str(None) = "None"`). -/
def pyStr : Option String → String
  | none => "None"
  | some s => s

/-- The apostrophe character, used to spell string literals from the source. -/
def apos : String := String.singleton (Char.ofNat 39)

/-- Prefix test on character lists (`needle` begins `hay`). -/
def listStartsWith : List Char → List Char → Bool
  | [], _ => true
  | _ :: _, [] => false
  | a :: as, b :: bs => (a == b) && listStartsWith as bs

/-- Substring occurrence on character lists, as Python's `needle in hay`. -/
def listHasSub (needle : List Char) : List Char → Bool
  | [] => listStartsWith needle []
  | b :: bs => listStartsWith needle (b :: bs) || listHasSub needle bs

/-- Python `needle in hay` on strings. -/
def containsSub (hay needle : String) : Bool := listHasSub needle.data hay.data

/-- Python `s.strip()`: drop whitespace from both ends.  (Stated over the
character list so that concrete instances reduce in the kernel.) -/
def pyStrip (s : String) : String :=
  String.mk (((s.data.dropWhile Char.isWhitespace).reverse.dropWhile Char.isWhitespace).reverse)

/-- Python `s.lower()` (ASCII case folding, which covers every string the
source compares). -/
def pyLower (s : String) : String := String.mk (s.data.map Char.toLower)

/-- Python `s.replace(a, b)` for one-character patterns. -/
def replaceChar (a b : Char) (s : String) : String :=
  String.mk (s.data.map (fun c => if c == a then b else c))

/-! ## Vector-store payloads (`DocumentProcessor.store_in_qdrant`, docs.py 180-267)

A stored point's payload keeps the chunk text, the enclosing `document_id`
and chunk index, plus the optional top-level `owner_id` / `widget_id` tags
that drive filtered retrieval. -/

/-- The chunk metadata fields consulted by `store_in_qdrant`
(`meta.get("user_id")`, `meta.get("widget_id")`). -/
structure ChunkMeta where
  user_id : Option String := none
  widget_id : Option String := none
deriving Repr, DecidableEq

/-- Payload of one Qdrant point as built in `store_in_qdrant`
(docs.py 233-250): `owner_id` / `widget_id` are added only when the
corresponding metadata value is truthy. -/
structure StoredPayload where
  text : String
  document_id : String
  chunk_index : Nat
  owner_id : Option String
  widget_id : Option String
deriving Repr, DecidableEq

/-- Payload construction for one chunk (docs.py 221-253): the chunk's
`user_id` metadata becomes the top-level `owner_id` tag when truthy, and
widget-scoped metadata is preserved as `widget_id` when truthy. -/
def storePayload (meta : ChunkMeta) (text document_id : String) (i : Nat) : StoredPayload :=
  let owner_id := meta.user_id
  { text := text
    document_id := document_id
    chunk_index := i
    owner_id := if truthy owner_id then owner_id else none
    widget_id := if truthy meta.widget_id then meta.widget_id else none }

/-- `DocumentProcessor.store_in_qdrant` restricted to payload construction:
each (chunk, embedding) pair yields one point whose payload is
`storePayload`; embeddings do not influence payloads. -/
def store_in_qdrant (chunks : List (String × ChunkMeta)) (document_id : String) :
    List StoredPayload :=
  (chunks.enum).map (fun ci => storePayload ci.2.2 ci.2.1 document_id ci.1)

/-! ## File-path owner derivation (`IngestionPipeline.process_document_by_path`,
docs.py 418-435) -/

/-- Owner derivation from a storage path (docs.py 426-435): when the path
contains `/`, its first segment is used as `user_id` unless empty or
starting with a dot. -/
def pathUserId (file_path : String) : Option String :=
  if file_path.data.contains '/' then
    let possible_user := String.mk (file_path.data.takeWhile (fun c => c ≠ '/'))
    if possible_user ≠ "" ∧ ¬ listStartsWith ['.'] possible_user.data then some possible_user
    else none
  else none

/-- Metadata attached to every chunk of a file ingestion (docs.py 418-435):
`user_id` comes from the path-prefix heuristic; file ingestion sets no
`widget_id`. -/
def fileMetadata (file_path : String) : ChunkMeta :=
  { user_id := pathUserId file_path, widget_id := none }

/-- Metadata attached to every chunk of a URL ingestion (docs.py 351-359):
`user_id` is set exactly when the caller supplied one. -/
def urlMetadata (user_id : Option String) : ChunkMeta :=
  { user_id := user_id, widget_id := none }

/-- `document_id` derivation used for files and the processing ledger
(docs.py 396, 450, 483): slashes and dashes become underscores. -/
def docIdOfPath (p : String) : String := replaceChar '-' '_' (replaceChar '/' '_' p)

/-- The payloads persisted when a file at `file_path` is chunked into
`texts` (`process_document_by_path` feeding `store_in_qdrant`). -/
def processFilePayloads (file_path : String) (texts : List String) : List StoredPayload :=
  store_in_qdrant (texts.map (fun t => (t, fileMetadata file_path))) (docIdOfPath file_path)

/-- The payloads persisted when a URL ingestion with caller id `user_id` is
chunked into `texts` (`process_document_from_url` feeding `store_in_qdrant`). -/
def processUrlPayloads (user_id : Option String) (document_id : String)
    (texts : List String) : List StoredPayload :=
  store_in_qdrant (texts.map (fun t => (t, urlMetadata user_id))) document_id

/-! ## Retrieval filter (`IngestionPipeline.retrieve`, docs.py 628-701) -/

/-- A Qdrant metadata filter as built by `retrieve`: either owner equality
only, or the conjunction of owner and widget equality. -/
inductive QFilter where
  | ownerOnly (o : String)
  | ownerAndWidget (o w : String)
deriving Repr, DecidableEq

/-- Filter decision of `retrieve` (docs.py 642-670): owner filtering only
when `owner_id` is truthy; with a truthy `widget_id` the store is probed
for any point tagged with that widget (`scroll` with limit 1) and the
widget condition is added exactly when such a point exists. -/
def retrieveFilter (store : List StoredPayload) (owner_id widget_id : Option String) :
    Option QFilter :=
  if truthy owner_id then
    let o := owner_id.getD ""
    if truthy widget_id then
      let w := widget_id.getD ""
      let has_widget_scoped := store.any (fun p => p.widget_id == some w)
      if has_widget_scoped then some (QFilter.ownerAndWidget o w)
      else some (QFilter.ownerOnly o)
    else some (QFilter.ownerOnly o)
  else none

/-- A retrieval hit as returned by `retrieve` (text, metadata elided, score). -/
structure RetrievedDoc where
  text : String
  score : ℚ
deriving Repr, DecidableEq

/-- `IngestionPipeline.retrieve` (docs.py 628-701), with the vector search
abstracted as `search` (from the filter to the hit list).  A blank query
returns `none` (the early `return []` at docs.py 636-637: no search runs);
otherwise the search runs with the filter from `retrieveFilter` and the
pair (filter used, hits) is returned. -/
def retrieve (search : Option QFilter → List RetrievedDoc) (store : List StoredPayload)
    (query : String) (owner_id widget_id : Option String) :
    Option (Option QFilter × List RetrievedDoc) :=
  if pyStrip query == "" then none
  else
    let f := retrieveFilter store owner_id widget_id
    some (f, search f)

/-! ## Answer generation (`IngestionPipeline.generate_answer`, docs.py 703-750) -/

/-- The fixed reply returned when no context documents are available
(docs.py 710). -/
def notEnoughInfoReply : String :=
  "I couldn" ++ apos ++ "t find relevant information in the knowledge base."

/-- `IngestionPipeline.generate_answer` (docs.py 703-750): the completion
service is abstracted as `llm`; the returned flag records whether it was
invoked.  Empty `context_docs` short-circuits to the fixed reply. -/
def generate_answer (llm : String → ℚ → String) (query : String)
    (context_docs : List RetrievedDoc) (temperature : ℚ) : String × Bool :=
  if context_docs.isEmpty then (notEnoughInfoReply, false)
  else
    let context_text := String.intercalate "\n\n" (context_docs.map (fun d => d.text))
    let prompt :=
      "You are a helpful assistant that answers questions using the provided context. " ++
      "If the context does not contain the answer, say that you don" ++ apos ++
      "t have enough information.\n\nContext:\n" ++ context_text ++
      "\n\nQuestion:\n" ++ query ++ "\n\nAnswer:"
    (llm prompt temperature, true)

/-! ## Widget token issuance (`WidgetTokenRequest` docs.py 786-788,
`create_widget_token` docs.py 948-1036) -/

/-- The `expires_in` field of `WidgetTokenRequest` (docs.py 788): pydantic
fills in `3600` when the caller omits the field; an explicit `null` stays
`None`. `caller = none` models an omitted field, `caller = some v` an
explicit value `v`. -/
def widgetTokenRequestExpiresIn (caller : Option (Option Int)) : Option Int :=
  caller.getD (some 3600)

/-- `expires_in = request.expires_in or 60 * 15` (docs.py 1019): the
15-minute fallback applies only to falsy values (`None` and `0`). -/
def effectiveExpiresIn (v : Option Int) : Int :=
  match v with
  | none => 900
  | some n => if n = 0 then 900 else n

/-- The `(iat, exp)` claims minted by `create_widget_token`
(docs.py 1019-1028): `exp = iat + expires_in`. -/
def widgetTokenClaims (iat : Int) (caller : Option (Option Int)) : Int × Int :=
  (iat, iat + effectiveExpiresIn (widgetTokenRequestExpiresIn caller))

/-! ## Widget chat validation (`widget_chat`, docs.py 1251-1349) -/

/-- The fields of a decoded widget token consulted by `widget_chat`. -/
structure DecodedToken where
  widget_id : Option String
  owner_id : Option String
deriving Repr, DecidableEq

/-- The widget record fields consulted by `widget_chat`. -/
structure WidgetRec where
  owner_id : Option String
deriving Repr, DecidableEq

/-- The externally visible work steps of a widget chat request, in the
order the handler performs them. -/
inductive ChatStep where
  | retrieval
  | generation
  | chatTurnLog
deriving Repr, DecidableEq

/-- `widget_chat` (docs.py 1251-1349) reduced to its validation /
side-effect skeleton.  `decoded = none` models a missing header or a token
failing signature/expiry checks (docs.py 1256-1264); `widgetLookup = none`
a missing or unfetchable widget record.  The step list records which of
retrieval, answer generation and chat-turn logging ran; all validation
errors happen before any step. -/
def widget_chat (decoded : Option DecodedToken) (widgetLookup : Option WidgetRec) :
    Except Nat Unit × List ChatStep :=
  match decoded with
  | none => (Except.error 401, [])
  | some tok =>
    if ¬ truthy tok.widget_id then (Except.error 400, [])
    else
      match widgetLookup with
      | none => (Except.error 401, [])
      | some widget =>
        let owner_id := if truthy tok.owner_id then tok.owner_id else widget.owner_id
        if pyStr widget.owner_id ≠ pyStr owner_id then (Except.error 401, [])
        else (Except.ok (), [ChatStep.retrieval, ChatStep.generation, ChatStep.chatTurnLog])

/-! ## Idempotency check (`IngestionPipeline.is_document_processed`,
docs.py 479-509) -/

/-- A row of the processing-status ledger as consulted by
`is_document_processed`: its `id` and optional `status`. -/
structure LedgerRow where
  id : String
  status : Option String
deriving Repr, DecidableEq

/-- `IngestionPipeline.is_document_processed` (docs.py 479-509).
`ledger = none` models the ledger query raising; `store = none` models the
Qdrant scroll raising.  The ledger answer is authoritative only when the
(limit 1) row exists with status `"processed"`; otherwise the store is
probed (scroll, limit 1) for any point with the derived `document_id`, and
a failed probe yields `false`. -/
def is_document_processed (ledger : Option (List LedgerRow))
    (store : Option (List StoredPayload)) (file_path : String) : Bool :=
  let document_id := docIdOfPath file_path
  let fromLedger : Bool :=
    match ledger with
    | none => false
    | some table =>
      match (table.filter (fun r => r.id == document_id)).take 1 with
      | [] => false
      | r :: _ => r.status == some "processed"
  if fromLedger then true
  else
    match store with
    | none => false
    | some points =>
      !((points.filter (fun p => p.document_id == document_id)).take 1).isEmpty

/-! ## Gap votes (`AnalyticsAgent.refresh_most_asked_questions`,
agent.py 139-159) -/

/-- The low-confidence phrases of agent.py 151. -/
def lowConfPhrases : List String :=
  ["i don" ++ apos ++ "t know", "i am not sure", "i" ++ apos ++ "m not sure",
   "i cannot", "unable to", "no information", "can" ++ apos ++ "t find"]

/-- The gap-vote decision of agent.py 139-156 for one chat turn: recorded
status `gap` (case-insensitively, absent read as `""`), a falsy assistant
message, a stripped length below 40, or a low-confidence phrase occurring
in the stripped, lowercased message. -/
def consideredGap (status : Option String) (assistant_message : Option String) : Bool :=
  if pyLower (status.getD "") == "gap" then true
  else
    match assistant_message with
    | none => true
    | some s =>
      if s == "" then true
      else
        let txt := pyStrip s
        if txt.length < 40 then true
        else lowConfPhrases.any (fun ph => containsSub (pyLower txt) ph)

/-! ## Question clustering (`AnalyticsAgent._cluster_using_embeddings`
agent.py 504-589, `AnalyticsAgent._cluster_using_fuzzy` agent.py 472-502)

Cosine similarity and `SequenceMatcher.ratio` are float-valued in the
source; they are abstracted as rational-valued parameters (`sim`,
`score`).  Every property proved below holds for all such functions, in
particular for the source's cosine with threshold 0.78 and ratio with
threshold 0.72. -/

/-- A cluster dict in the output shape shared by both clustering
strategies (`canonical_question`, `total_count`, `trend`, `variants`,
`tags`). -/
structure ClusterOut where
  canonical_question : String
  total_count : Nat
  trend : String
  variants : List String
  tags : List String
deriving Repr, DecidableEq

/-- A cluster during embedding clustering, additionally carrying the
`__centroid` and `__vec_count` bookkeeping fields (agent.py 569-577). -/
structure EmbCluster where
  out : ClusterOut
  centroid : List ℚ
  vec_count : Nat
deriving Repr, DecidableEq

/-- The frequency-weighted running-mean centroid update of
agent.py 560-563. -/
def updatedCentroid (prev : List ℚ) (prevCount : Nat) (vec : List ℚ) (count : Nat) :
    List ℚ :=
  (prev.zip vec).map (fun pv => (pv.1 * prevCount + pv.2 * count) / ((prevCount : ℚ) + count))

/-- One iteration of the greedy embedding-clustering loop
(agent.py 548-577): the question joins the first existing cluster whose
centroid is similar enough, updating total count, variants and centroid;
otherwise a fresh cluster is appended at the end. -/
def assignEmb (sim : List ℚ → List ℚ → ℚ) (threshold : ℚ) (q : String) (count : Nat)
    (vec : List ℚ) : List EmbCluster → List EmbCluster
  | [] =>
    [{ out := { canonical_question := q, total_count := count, trend := "neutral",
                variants := [q], tags := [] },
       centroid := vec, vec_count := count }]
  | c :: rest =>
    if sim vec c.centroid ≥ threshold then
      { out := { c.out with
                   variants := c.out.variants ++ [q],
                   total_count := c.out.total_count + count },
        centroid := updatedCentroid c.centroid c.vec_count vec count,
        vec_count := c.vec_count + count } :: rest
    else c :: assignEmb sim threshold q count vec rest

/-- `_cluster_using_embeddings` (agent.py 504-589), with embeddings
supplied as `vecs` and cosine similarity abstracted as `sim` (the source
uses cosine with threshold 0.78).  Mirrors the source: validate the
embedding response, sort `(question, count, vec)` triples by count
descending (Python's stable sort), run the greedy loop, drop the
bookkeeping fields, and sort clusters by `total_count` descending. -/
def cluster_using_embeddings (sim : List ℚ → List ℚ → ℚ) (threshold : ℚ)
    (questions : List String) (counts : List Nat) (vecs : List (List ℚ)) :
    List ClusterOut :=
  if vecs.isEmpty || vecs.length ≠ questions.length then []
  else
    let q_items := questions.zip (counts.zip vecs)
    let sortedItems := q_items.mergeSort (fun a b => b.2.1 ≤ a.2.1)
    let clusters := sortedItems.foldl
      (fun cls item => assignEmb sim threshold item.1 item.2.1 item.2.2 cls) []
    let outs := clusters.map (fun c => c.out)
    outs.mergeSort (fun a b => b.total_count ≤ a.total_count)

/-- One iteration of the fuzzy clustering loop (agent.py 480-497): the
question joins the first cluster whose canonical question is similar
enough (comparing lowercased strings), else founds a new cluster. -/
def assignFuzzy (score : String → String → ℚ) (threshold : ℚ) (q : String) (count : Nat) :
    List ClusterOut → List ClusterOut
  | [] =>
    [{ canonical_question := q, total_count := count, trend := "neutral",
       variants := [q], tags := [] }]
  | c :: rest =>
    if score (pyLower q) (pyLower c.canonical_question) ≥ threshold then
      { c with variants := c.variants ++ [q], total_count := c.total_count + count } :: rest
    else c :: assignFuzzy score threshold q count rest

/-- `_cluster_using_fuzzy` (agent.py 472-502), with
`SequenceMatcher.ratio` abstracted as `score` (the source uses threshold
0.72): greedy grouping, sort by `total_count` descending, then truncate to
`limit` when given and positive. -/
def cluster_using_fuzzy (score : String → String → ℚ) (threshold : ℚ)
    (items : List (String × Nat)) (limit : Option Nat) : List ClusterOut :=
  let clusters := items.foldl (fun cls it => assignFuzzy score threshold it.1 it.2 cls) []
  let sorted := clusters.mergeSort (fun a b => b.total_count ≤ a.total_count)
  match limit with
  | some l => if l > 0 then sorted.take l else sorted
  | none => sorted

/-! ## Knowledge-gap rows (`AnalyticsAgent.refresh_most_asked_questions`
agent.py 200-310, `AnalyticsDAO.upsert_gap` dao.py 35-45) -/

/-- The fields of a knowledge-gap row relevant to keying and status.  The
LLM enrichment of agent.py 242-290 may override `gap_rate`, `why`,
`missing` and parts of `metadata` but never these fields. -/
structure GapRow where
  site_id : Option String
  topic : String
  user_id : Option String
  widget_id : Option String
  status : String
  recent_attempts : Nat
deriving Repr, DecidableEq

/-- The gap item built per message in agent.py 209-219 and 292-294: site
is the owner's representative site, topic is the message, status is always
`"open"`, and `user_id` is the owner. -/
def gapItem (rep_site : Option String) (owner_id : String) (message : String)
    (gcount : Nat) (widget : Option String) : GapRow :=
  { site_id := rep_site
    topic := message
    user_id := some owner_id
    widget_id := widget
    status := "open"
    recent_attempts := gcount }

/-- Generic upsert against a table: when a row with the same key exists it
is replaced wholesale by the payload, otherwise the payload is appended. -/
def upsertBy {κ : Type} [DecidableEq κ] (key : GapRow → κ) (table : List GapRow)
    (payload : GapRow) : List GapRow :=
  if table.any (fun r => key r = key payload) then
    table.map (fun r => if key r = key payload then payload else r)
  else table ++ [payload]

/-- `AnalyticsDAO.upsert_gap` (dao.py 35-45): a PostgREST upsert with
`on_conflict="site_id,topic"` — the database key is `(site_id, topic)`. -/
def upsert_gap (table : List GapRow) (payload : GapRow) : List GapRow :=
  upsertBy (fun r => (r.site_id, r.topic)) table payload

/-- Modelled from the spec: the upsert behaviour the specification
describes for gap rows, keyed on `(owner_id, topic)` (the row's
`user_id`).  Compared against `upsert_gap`, which is what the code does. -/
def upsert_gap_ownerKeyed (table : List GapRow) (payload : GapRow) : List GapRow :=
  upsertBy (fun r => (r.user_id, r.topic)) table payload

/-! ## Theorems -/

/-- Claim C7: for every query string and temperature, `generate_answer`
called with an empty documents list returns the fixed
not-enough-information reply and performs no completion-service call. -/
theorem generate_answer_empty_docs (llm : String → ℚ → String) (query : String)
    (temperature : ℚ) :
    generate_answer llm query [] temperature = (notEnoughInfoReply, false) := rfl

/-- Claim C3 (failing input): a widget-token request that omits
`expires_in` is minted with `exp - iat = 3600`, not the claimed 900
seconds; the 900-second fallback of docs.py 1019 fires only for an
explicit `null` or `0`, because the pydantic field default is 3600
(docs.py 788). -/
theorem widget_token_default_expiry_3600 :
    (widgetTokenClaims 1700000000 none).2 - (widgetTokenClaims 1700000000 none).1 = 3600 ∧
    (widgetTokenClaims 1700000000 none).2 - (widgetTokenClaims 1700000000 none).1 ≠ 900 ∧
    (widgetTokenClaims 1700000000 (some none)).2 - (widgetTokenClaims 1700000000 (some none)).1
      = 900 := by
  refine ⟨by decide, by decide, by decide⟩

/-- Claim C1: for a non-blank query, `retrieve` searches with no filter
when `owner_id` is absent (falsy); with owner-equality only when only
`owner_id` is given; with the conjunction (owner AND widget) when both are
given and some stored point carries the widget tag; and falls back to
owner-equality only when no stored point carries the widget tag. -/
theorem retrieve_filter_cases (search : Option QFilter → List RetrievedDoc)
    (store : List StoredPayload) (q o w : String)
    (hq : pyStrip q ≠ "") (ho : o ≠ "") (hw : w ≠ "") :
    (∀ wopt : Option String, retrieve search store q none wopt = some (none, search none)) ∧
    retrieve search store q (some o) none =
      some (some (QFilter.ownerOnly o), search (some (QFilter.ownerOnly o))) ∧
    (store.any (fun p => p.widget_id == some w) = true →
      retrieve search store q (some o) (some w) =
        some (some (QFilter.ownerAndWidget o w),
              search (some (QFilter.ownerAndWidget o w)))) ∧
    (store.any (fun p => p.widget_id == some w) = false →
      retrieve search store q (some o) (some w) =
        some (some (QFilter.ownerOnly o), search (some (QFilter.ownerOnly o)))) := by
  have hq' : (pyStrip q == "") = false := by simpa using hq
  refine ⟨fun wopt => ?_, ?_, fun hprobe => ?_, fun hprobe => ?_⟩
  · simp [retrieve, retrieveFilter, truthy, hq']
  · simp [retrieve, retrieveFilter, truthy, hq', ho]
  · simp [retrieve, retrieveFilter, truthy, hq', ho, hw, hprobe]
  · simp [retrieve, retrieveFilter, truthy, hq', ho, hw, hprobe]

/-- Claim C1 witness: concrete instantiation with a point carrying the
probed widget tag absent from the store. -/
theorem retrieve_filter_cases_witness :
    (pyStrip "hi" ≠ "") ∧ ("alice" ≠ "") ∧ ("w1" ≠ "") ∧
    ((∀ wopt : Option String,
        retrieve (fun _ => []) [] "hi" none wopt = some (none, [])) ∧
     retrieve (fun _ => []) [] "hi" (some "alice") none =
       some (some (QFilter.ownerOnly "alice"), []) ∧
     (([] : List StoredPayload).any (fun p => p.widget_id == some "w1") = true →
       retrieve (fun _ => []) [] "hi" (some "alice") (some "w1") =
         some (some (QFilter.ownerAndWidget "alice" "w1"), [])) ∧
     (([] : List StoredPayload).any (fun p => p.widget_id == some "w1") = false →
       retrieve (fun _ => []) [] "hi" (some "alice") (some "w1") =
         some (some (QFilter.ownerOnly "alice"), []))) :=
  ⟨by decide, by decide, by decide,
   retrieve_filter_cases (fun _ => []) [] "hi" "alice" "w1"
     (by decide) (by decide) (by decide)⟩

/-- Claim C4: with a signature-valid, unexpired token (a decoded token
reaching the handler body) whose effective owner — the token's `owner_id`,
or the stored owner when the token carries none — differs from the widget
record's current owner, `widget_chat` answers 401 and performs no
retrieval, no answer generation and no chat-turn logging. -/
theorem widget_chat_owner_mismatch (tok : DecodedToken) (widget : WidgetRec)
    (hwid : truthy tok.widget_id = true)
    (hmm : pyStr widget.owner_id ≠
      pyStr (if truthy tok.owner_id then tok.owner_id else widget.owner_id)) :
    widget_chat (some tok) (some widget) = (Except.error 401, []) := by
  simp [widget_chat, hwid, hmm]

/-- Claim C4 witness: a token embedding owner `evil` against a widget
currently owned by `alice`. -/
theorem widget_chat_owner_mismatch_witness :
    truthy (DecodedToken.mk (some "w1") (some "evil")).widget_id = true ∧
    widget_chat (some (DecodedToken.mk (some "w1") (some "evil")))
      (some (WidgetRec.mk (some "alice"))) = (Except.error 401, []) :=
  ⟨by decide,
   widget_chat_owner_mismatch (DecodedToken.mk (some "w1") (some "evil"))
     (WidgetRec.mk (some "alice")) (by decide) (by decide)⟩

/-- Claim C2 counterexample: a file at the bucket root (no `/` in its
path, so no owner prefix) and a URL ingestion with no caller id both
persist chunks that carry no `owner_id` tag — the claimed invariant
"every persisted chunk carries at least an owner_id" fails. -/
theorem store_chunk_without_owner :
    (processFilePayloads "file.pdf" ["hello"]).all (fun p => p.owner_id.isSome) = false ∧
    (processUrlPayloads none "url_example.com_root" ["hello"]).all
      (fun p => p.owner_id.isSome) = false := by
  refine ⟨by decide, by decide⟩

/-- Claim C2 amended: a persisted chunk carries an `owner_id` exactly when
its ingestion metadata holds a truthy user id — for files, when the
`<owner_id>/filename` prefix heuristic applies (path contains `/` and the
first segment is non-empty and not dot-led); for URLs, when the caller
supplied a truthy user id.  Chunks ingested without such an id are
persisted with no `owner_id`. -/
theorem store_owner_tag_from_metadata (file_path did : String) (texts : List String)
    (uid : Option String) (p q : StoredPayload)
    (hp : p ∈ processFilePayloads file_path texts)
    (hq : q ∈ processUrlPayloads uid did texts) :
    p.owner_id = pathUserId file_path ∧
    q.owner_id = (if truthy uid then uid else none) := by
  constructor
  · simp only [processFilePayloads, store_in_qdrant, List.mem_map] at hp
    obtain ⟨⟨i, t, mt⟩, hmem, rfl⟩ := hp
    have hmeta : mt = fileMetadata file_path := by
      rcases List.mem_enum hmem with ⟨hi, hx⟩
      have hlen : i < texts.length := by simpa using hi
      have hget : (texts.map (fun t => (t, fileMetadata file_path)))[i] =
          (texts[i], fileMetadata file_path) := by simp
      rw [hget] at hx
      exact congrArg Prod.snd hx
    subst hmeta
    simp only [storePayload, fileMetadata]
    cases hpu : pathUserId file_path with
    | none => simp [truthy]
    | some s =>
      have hs : s ≠ "" := by
        simp only [pathUserId] at hpu
        split at hpu
        · split at hpu
          · rename_i h
            exact (Option.some.injEq _ _ ▸ hpu) ▸ h.1
          · exact absurd hpu (by simp)
        · exact absurd hpu (by simp)
      simp [truthy, hs]
  · simp only [processUrlPayloads, store_in_qdrant, List.mem_map] at hq
    obtain ⟨⟨i, t, mt⟩, hmem, rfl⟩ := hq
    have hmeta : mt = urlMetadata uid := by
      rcases List.mem_enum hmem with ⟨hi, hx⟩
      have hlen : i < texts.length := by simpa using hi
      have hget : (texts.map (fun t => (t, urlMetadata uid)))[i] =
          (texts[i], urlMetadata uid) := by simp
      rw [hget] at hx
      exact congrArg Prod.snd hx
    subst hmeta
    simp [storePayload, urlMetadata]

/-- Claim C2 amended witness: a chunk of `alice/f.pdf` is tagged with
owner `alice`; a URL chunk ingested for caller `bob` is tagged `bob`. -/
theorem store_owner_tag_from_metadata_witness :
    (StoredPayload.mk "x" "alice_f.pdf" 0 (some "alice") none ∈
       processFilePayloads "alice/f.pdf" ["x"]) ∧
    (StoredPayload.mk "x" "url_doc" 0 (some "bob") none ∈
       processUrlPayloads (some "bob") "url_doc" ["x"]) ∧
    ((StoredPayload.mk "x" "alice_f.pdf" 0 (some "alice") none).owner_id =
       pathUserId "alice/f.pdf" ∧
     (StoredPayload.mk "x" "url_doc" 0 (some "bob") none).owner_id =
       (if truthy (some "bob") then some "bob" else none)) :=
  ⟨by decide, by decide,
   store_owner_tag_from_metadata "alice/f.pdf" "url_doc" ["x"] (some "bob") _ _
     (by decide) (by decide)⟩

/-- Claim C5 counterexample: `upsert_gap` conflicts on `(site_id, topic)`,
not `(owner_id, topic)` — a gap row for owner `bob` replaces owner
`alice`'s row of the same site and topic instead of inserting a second
row; and a rerun for the same owner clobbers an externally set status
back to `"open"`. -/
theorem upsert_gap_not_owner_keyed :
    upsert_gap [gapItem (some "site1") "alice" "refunds" 2 none]
        (gapItem (some "site1") "bob" "refunds" 3 none) ≠
      upsert_gap_ownerKeyed [gapItem (some "site1") "alice" "refunds" 2 none]
        (gapItem (some "site1") "bob" "refunds" 3 none) ∧
    (upsert_gap [{ gapItem (some "site1") "alice" "refunds" 2 none with status := "resolved" }]
        (gapItem (some "site1") "alice" "refunds" 3 none)).map (fun r => r.status) =
      ["open"] := by
  refine ⟨by decide, by decide⟩

/-- Claim C5 amended: each analytics gap row (always produced with status
`"open"`) is upserted with conflict key `(site_id, topic)`: when no row of
the table shares that key the row is appended; when a row shares it, that
row is replaced wholesale — its previous contents, externally set status
included, do not survive — and the table does not grow. -/
theorem upsert_gap_site_topic_semantics (table : List GapRow) (rep_site : Option String)
    (owner message : String) (gcount : Nat) (widget : Option String) :
    (gapItem rep_site owner message gcount widget).status = "open" ∧
    ((∀ r ∈ table, (r.site_id, r.topic) ≠
        ((gapItem rep_site owner message gcount widget).site_id,
         (gapItem rep_site owner message gcount widget).topic)) →
      upsert_gap table (gapItem rep_site owner message gcount widget) =
        table ++ [gapItem rep_site owner message gcount widget]) ∧
    (∀ r ∈ table,
      (r.site_id, r.topic) = ((gapItem rep_site owner message gcount widget).site_id,
        (gapItem rep_site owner message gcount widget).topic) →
      r ≠ gapItem rep_site owner message gcount widget →
      r ∉ upsert_gap table (gapItem rep_site owner message gcount widget)) ∧
    ((∃ r ∈ table, (r.site_id, r.topic) =
        ((gapItem rep_site owner message gcount widget).site_id,
         (gapItem rep_site owner message gcount widget).topic)) →
      (upsert_gap table (gapItem rep_site owner message gcount widget)).length =
          table.length ∧
        gapItem rep_site owner message gcount widget ∈
          upsert_gap table (gapItem rep_site owner message gcount widget)) := by
  set g := gapItem rep_site owner message gcount widget with hg
  have hcond : ∀ b : List GapRow,
      (b.any fun r => decide ((r.site_id, r.topic) = (g.site_id, g.topic))) = true ↔
        ∃ r ∈ b, (r.site_id, r.topic) = (g.site_id, g.topic) := by
    intro b
    simp [List.any_eq_true]
  refine ⟨rfl, fun hnone => ?_, fun r hr hkey hne hmem => ?_, fun hsome => ?_⟩
  · simp only [upsert_gap, upsertBy]
    rw [if_neg]
    intro hex
    rcases (hcond table).mp hex with ⟨x, hx, hkx⟩
    exact hnone x hx hkx
  · simp only [upsert_gap, upsertBy] at hmem
    rw [if_pos ((hcond table).mpr ⟨r, hr, hkey⟩)] at hmem
    rcases List.mem_map.mp hmem with ⟨y, hy, hyy⟩
    by_cases hky : (y.site_id, y.topic) = (g.site_id, g.topic)
    · rw [if_pos hky] at hyy
      exact hne hyy.symm
    · rw [if_neg hky] at hyy
      exact hky (hyy ▸ hkey)
  · have hpos := (hcond table).mpr hsome
    constructor
    · simp only [upsert_gap, upsertBy]
      rw [if_pos hpos]
      simp
    · simp only [upsert_gap, upsertBy]
      rw [if_pos hpos]
      rcases hsome with ⟨x, hx, hkx⟩
      exact List.mem_map.mpr ⟨x, hx, by rw [if_pos hkx]⟩

/-- Claim C5 amended witness: a fresh topic is appended; a clashing
`(site_id, topic)` row is replaced. -/
theorem upsert_gap_site_topic_semantics_witness :
    (gapItem (some "site1") "alice" "refunds" 2 none).status = "open" ∧
    ((∀ r ∈ ([] : List GapRow), (r.site_id, r.topic) ≠
        ((gapItem (some "site1") "alice" "refunds" 2 none).site_id,
         (gapItem (some "site1") "alice" "refunds" 2 none).topic)) →
      upsert_gap [] (gapItem (some "site1") "alice" "refunds" 2 none) =
        [] ++ [gapItem (some "site1") "alice" "refunds" 2 none]) ∧
    (∀ r ∈ ([] : List GapRow),
      (r.site_id, r.topic) = ((gapItem (some "site1") "alice" "refunds" 2 none).site_id,
        (gapItem (some "site1") "alice" "refunds" 2 none).topic) →
      r ≠ gapItem (some "site1") "alice" "refunds" 2 none →
      r ∉ upsert_gap [] (gapItem (some "site1") "alice" "refunds" 2 none)) ∧
    ((∃ r ∈ ([] : List GapRow), (r.site_id, r.topic) =
        ((gapItem (some "site1") "alice" "refunds" 2 none).site_id,
         (gapItem (some "site1") "alice" "refunds" 2 none).topic)) →
      (upsert_gap [] (gapItem (some "site1") "alice" "refunds" 2 none)).length =
          ([] : List GapRow).length ∧
        gapItem (some "site1") "alice" "refunds" 2 none ∈
          upsert_gap [] (gapItem (some "site1") "alice" "refunds" 2 none)) :=
  upsert_gap_site_topic_semantics [] (some "site1") "alice" "refunds" 2 none

/-- Helper: scrolling with limit 1 finds a point exactly when some point
matches. -/
theorem filter_take_one_not_isEmpty {α : Type} (l : List α) (p : α → Bool) :
    (!((l.filter p).take 1).isEmpty) = l.any p := by
  induction l with
  | nil => rfl
  | cons a t ih => by_cases h : p a <;> simp [List.filter_cons, h, ih]

/-- Claim C6: `is_document_processed` answers `true` when the ledger row
for the derived id reports status `"processed"`; otherwise (row absent,
row with another status, or ledger lookup error) it answers `true` iff the
vector store holds at least one point with that `document_id`; a failed
fallback probe yields `false`. -/
theorem is_document_processed_ledger_then_probe (ledger : Option (List LedgerRow))
    (store : Option (List StoredPayload)) (file_path : String) :
    is_document_processed ledger store file_path =
      ((match ledger with
        | none => false
        | some table =>
          match (table.filter (fun r => r.id == docIdOfPath file_path)).head? with
          | some r => r.status == some "processed"
          | none => false) ||
       (match store with
        | none => false
        | some points => points.any (fun p => p.document_id == docIdOfPath file_path))) := by
  simp only [is_document_processed]
  cases ledger with
  | none =>
    simp only [Bool.false_or]
    cases store with
    | none => rfl
    | some points =>
      simpa using filter_take_one_not_isEmpty points
        (fun p => p.document_id == docIdOfPath file_path)
  | some table =>
    cases hf : (table.filter (fun r => r.id == docIdOfPath file_path)) with
    | nil =>
      simp only [hf, List.take_nil, List.head?_nil, Bool.false_or]
      cases store with
      | none => rfl
      | some points =>
        simpa using filter_take_one_not_isEmpty points
          (fun p => p.document_id == docIdOfPath file_path)
    | cons r rest =>
      simp only [hf, List.take_cons, List.head?_cons]
      by_cases hs : r.status == some "processed"
      · simp [hs]
      · simp only [List.take, hs]
        simp only [Bool.false_eq_true, if_false, Bool.false_or]
        cases store with
        | none => rfl
        | some points =>
          simpa using filter_take_one_not_isEmpty points
            (fun p => p.document_id == docIdOfPath file_path)

/-- Claim C9: a chat turn counts as a gap vote iff its recorded status is
`gap` (case-insensitively), or its assistant message is absent or empty,
or the stripped message is shorter than 40 characters, or the stripped,
lowercased message contains one of the low-confidence phrases. -/
theorem gap_vote_iff (status assistant_message : Option String) :
    consideredGap status assistant_message = true ↔
      (pyLower (status.getD "") = "gap" ∨
       assistant_message = none ∨
       assistant_message = some "" ∨
       (∃ s, assistant_message = some s ∧ (pyStrip s).length < 40) ∨
       (∃ s, assistant_message = some s ∧
         lowConfPhrases.any (fun ph => containsSub (pyLower (pyStrip s)) ph) = true)) := by
  cases assistant_message with
  | none => simp [consideredGap]
  | some s =>
    by_cases h1 : pyLower (status.getD "") == "gap"
    · simp only [consideredGap, h1, if_true, true_iff]
      exact Or.inl (by simpa using h1)
    · by_cases h2 : s == ""
      · have hs : s = "" := by simpa using h2
        subst hs
        simp [consideredGap, h1]
      · by_cases h3 : (pyStrip s).length < 40
        · simp only [consideredGap, h1, h2]
          simp only [Bool.false_eq_true, if_false, if_pos h3, true_iff]
          exact Or.inr (Or.inr (Or.inr (Or.inl ⟨s, rfl, h3⟩)))
        · simp only [consideredGap, h1, h2]
          simp only [Bool.false_eq_true, if_false, if_neg h3]
          constructor
          · intro hany
            exact Or.inr (Or.inr (Or.inr (Or.inr ⟨s, rfl, hany⟩)))
          · intro hdisj
            rcases hdisj with hgap | hnone | hempty | ⟨t, ht, hlen⟩ | ⟨t, ht, hany⟩
            · exact absurd hgap (by simpa using h1)
            · exact absurd hnone (by simp)
            · rw [Option.some.injEq] at hempty
              exact absurd hempty (by simpa using h2)
            · rw [Option.some.injEq] at ht
              exact absurd (ht ▸ hlen) h3
            · rw [Option.some.injEq] at ht
              exact ht ▸ hany

/-! ## Clustering lemmas -/

/-- One greedy embedding step inserts the question into exactly one
cluster's variants. -/
theorem assignEmb_variants_perm (sim : List ℚ → List ℚ → ℚ) (th : ℚ) (q : String)
    (count : Nat) (vec : List ℚ) (cls : List EmbCluster) :
    ((assignEmb sim th q count vec cls).flatMap (fun c => c.out.variants)).Perm
      (q :: cls.flatMap (fun c => c.out.variants)) := by
  induction cls with
  | nil => simp [assignEmb]
  | cons c rest ih =>
    simp only [assignEmb]
    by_cases h : sim vec c.centroid ≥ th
    · rw [if_pos h]
      simp only [List.flatMap_cons]
      have : (c.out.variants ++ [q]) ++ rest.flatMap (fun c => c.out.variants) =
          c.out.variants ++ (q :: rest.flatMap (fun c => c.out.variants)) := by simp
      rw [this]
      exact List.perm_middle
    · rw [if_neg h]
      simp only [List.flatMap_cons]
      exact ((List.Perm.append_left c.out.variants ih).trans List.perm_middle)

/-- One greedy embedding step adds the question's count to the totals. -/
theorem assignEmb_total_sum (sim : List ℚ → List ℚ → ℚ) (th : ℚ) (q : String)
    (count : Nat) (vec : List ℚ) (cls : List EmbCluster) :
    ((assignEmb sim th q count vec cls).map (fun c => c.out.total_count)).sum =
      count + (cls.map (fun c => c.out.total_count)).sum := by
  induction cls with
  | nil => simp [assignEmb]
  | cons c rest ih =>
    simp only [assignEmb]
    by_cases h : sim vec c.centroid ≥ th
    · rw [if_pos h]
      simp only [List.map_cons, List.sum_cons]
      omega
    · rw [if_neg h]
      simp only [List.map_cons, List.sum_cons, ih]
      omega

/-- The greedy embedding fold distributes every processed question into
exactly one variants list. -/
theorem embFold_variants_perm (sim : List ℚ → List ℚ → ℚ) (th : ℚ)
    (items : List (String × Nat × List ℚ)) (cls : List EmbCluster) :
    ((items.foldl (fun cs it => assignEmb sim th it.1 it.2.1 it.2.2 cs) cls).flatMap
        (fun c => c.out.variants)).Perm
      (items.map Prod.fst ++ cls.flatMap (fun c => c.out.variants)) := by
  induction items generalizing cls with
  | nil => simp
  | cons it rest ih =>
    simp only [List.foldl_cons, List.map_cons, List.cons_append]
    refine ((ih _).trans ?_)
    refine (List.Perm.append_left _ (assignEmb_variants_perm sim th it.1 it.2.1 it.2.2 cls)).trans ?_
    exact List.perm_middle

/-- The greedy embedding fold conserves the sum of counts. -/
theorem embFold_total_sum (sim : List ℚ → List ℚ → ℚ) (th : ℚ)
    (items : List (String × Nat × List ℚ)) (cls : List EmbCluster) :
    ((items.foldl (fun cs it => assignEmb sim th it.1 it.2.1 it.2.2 cs) cls).map
        (fun c => c.out.total_count)).sum =
      (items.map (fun it => it.2.1)).sum + (cls.map (fun c => c.out.total_count)).sum := by
  induction items generalizing cls with
  | nil => simp
  | cons it rest ih =>
    simp only [List.foldl_cons, List.map_cons, List.sum_cons]
    rw [ih, assignEmb_total_sum]
    omega

/-- One greedy fuzzy step inserts the question into exactly one cluster's
variants. -/
theorem assignFuzzy_variants_perm (score : String → String → ℚ) (th : ℚ) (q : String)
    (count : Nat) (cls : List ClusterOut) :
    ((assignFuzzy score th q count cls).flatMap (fun c => c.variants)).Perm
      (q :: cls.flatMap (fun c => c.variants)) := by
  induction cls with
  | nil => simp [assignFuzzy]
  | cons c rest ih =>
    simp only [assignFuzzy]
    by_cases h : score (pyLower q) (pyLower c.canonical_question) ≥ th
    · rw [if_pos h]
      simp only [List.flatMap_cons]
      have : (c.variants ++ [q]) ++ rest.flatMap (fun c => c.variants) =
          c.variants ++ (q :: rest.flatMap (fun c => c.variants)) := by simp
      rw [this]
      exact List.perm_middle
    · rw [if_neg h]
      simp only [List.flatMap_cons]
      exact ((List.Perm.append_left c.variants ih).trans List.perm_middle)

/-- One greedy fuzzy step adds the question's count to the totals. -/
theorem assignFuzzy_total_sum (score : String → String → ℚ) (th : ℚ) (q : String)
    (count : Nat) (cls : List ClusterOut) :
    ((assignFuzzy score th q count cls).map (fun c => c.total_count)).sum =
      count + (cls.map (fun c => c.total_count)).sum := by
  induction cls with
  | nil => simp [assignFuzzy]
  | cons c rest ih =>
    simp only [assignFuzzy]
    by_cases h : score (pyLower q) (pyLower c.canonical_question) ≥ th
    · rw [if_pos h]
      simp only [List.map_cons, List.sum_cons]
      omega
    · rw [if_neg h]
      simp only [List.map_cons, List.sum_cons, ih]
      omega

/-- The greedy fuzzy fold distributes every processed question into
exactly one variants list. -/
theorem fuzzyFold_variants_perm (score : String → String → ℚ) (th : ℚ)
    (items : List (String × Nat)) (cls : List ClusterOut) :
    ((items.foldl (fun cs it => assignFuzzy score th it.1 it.2 cs) cls).flatMap
        (fun c => c.variants)).Perm
      (items.map Prod.fst ++ cls.flatMap (fun c => c.variants)) := by
  induction items generalizing cls with
  | nil => simp
  | cons it rest ih =>
    simp only [List.foldl_cons, List.map_cons, List.cons_append]
    refine ((ih _).trans ?_)
    refine (List.Perm.append_left _ (assignFuzzy_variants_perm score th it.1 it.2 cls)).trans ?_
    exact List.perm_middle

/-- The greedy fuzzy fold conserves the sum of counts. -/
theorem fuzzyFold_total_sum (score : String → String → ℚ) (th : ℚ)
    (items : List (String × Nat)) (cls : List ClusterOut) :
    ((items.foldl (fun cs it => assignFuzzy score th it.1 it.2 cs) cls).map
        (fun c => c.total_count)).sum =
      (items.map Prod.snd).sum + (cls.map (fun c => c.total_count)).sum := by
  induction items generalizing cls with
  | nil => simp
  | cons it rest ih =>
    simp only [List.foldl_cons, List.map_cons, List.sum_cons]
    rw [ih, assignFuzzy_total_sum]
    omega

/-- Dropping the bookkeeping fields commutes with collecting variants. -/
theorem flatMap_out_variants (l : List EmbCluster) :
    (l.map (fun c => c.out)).flatMap (fun c => c.variants) =
      l.flatMap (fun c => c.out.variants) := by
  induction l with
  | nil => rfl
  | cons c rest ih => simp [ih]

/-- Sorting does not change the concatenated variants (up to permutation). -/
theorem flatMap_mergeSort_perm {α β : Type} (l : List α) (le : α → α → Bool)
    (f : α → List β) : ((l.mergeSort le).flatMap f).Perm (l.flatMap f) :=
  List.Perm.flatMap_right f (List.mergeSort_perm l le)

/-- Sorting does not change a mapped list (up to permutation). -/
theorem map_mergeSort_perm {α β : Type} (l : List α) (le : α → α → Bool)
    (f : α → β) : ((l.mergeSort le).map f).Perm (l.map f) :=
  List.Perm.map f (List.mergeSort_perm l le)

/-- Sorting does not change a mapped sum. -/
theorem sum_map_mergeSort {α β : Type} [AddCommMonoid β] (l : List α) (le : α → α → Bool)
    (f : α → β) : ((l.mergeSort le).map f).sum = (l.map f).sum :=
  List.Perm.sum_eq (map_mergeSort_perm l le f)

/-- Claim C8: the embedding-clustering step is a pure function of the
message/embedding/frequency input — two runs on identical input give
identical output — and its output is sorted by `total_count` descending.
Stated for every similarity function and threshold, hence in particular
for the source's cosine similarity with threshold 0.78. -/
theorem cluster_embeddings_deterministic_sorted (sim : List ℚ → List ℚ → ℚ) (th : ℚ)
    (questions : List String) (counts : List Nat) (vecs : List (List ℚ)) :
    cluster_using_embeddings sim th questions counts vecs =
      cluster_using_embeddings sim th questions counts vecs ∧
    List.Sorted (fun a b : ClusterOut => b.total_count ≤ a.total_count)
      (cluster_using_embeddings sim th questions counts vecs) := by
  refine ⟨rfl, ?_⟩
  unfold cluster_using_embeddings
  split
  · exact List.sorted_nil
  · refine List.Pairwise.imp (fun h => of_decide_eq_true h)
      (List.sorted_mergeSort ?_ ?_ _)
    · intro a b c hab hbc
      simp only [decide_eq_true_eq] at hab hbc ⊢
      omega
    · intro a b
      simp only [Bool.or_eq_true, decide_eq_true_eq]
      omega

/-- Claim C10: before any limit truncation, both clustering strategies
place every input question in exactly one cluster's variants list
(the concatenated variants are a permutation of the input questions) and
conserve the total counts.  Stated for every similarity/score function,
hence in particular for the source's cosine (threshold 0.78) and
`SequenceMatcher` ratio (threshold 0.72). -/
theorem clustering_conserves_questions_and_counts
    (sim : List ℚ → List ℚ → ℚ) (score : String → String → ℚ) (thE thF : ℚ)
    (questions : List String) (counts : List Nat) (vecs : List (List ℚ))
    (items : List (String × Nat))
    (hne : vecs ≠ []) (hvlen : vecs.length = questions.length)
    (hclen : counts.length = questions.length) :
    ((cluster_using_embeddings sim thE questions counts vecs).flatMap
        (fun c => c.variants)).Perm questions ∧
    ((cluster_using_embeddings sim thE questions counts vecs).map
        (fun c => c.total_count)).sum = counts.sum ∧
    ((cluster_using_fuzzy score thF items none).flatMap
        (fun c => c.variants)).Perm (items.map Prod.fst) ∧
    ((cluster_using_fuzzy score thF items none).map
        (fun c => c.total_count)).sum = (items.map Prod.snd).sum := by
  have h1 : vecs.isEmpty = false := by
    cases vecs with
    | nil => exact absurd rfl hne
    | cons v t => rfl
  have h2 : decide (vecs.length ≠ questions.length) = false := by simp [hvlen]
  have hguard : (vecs.isEmpty || decide (vecs.length ≠ questions.length)) = false := by
    rw [h1, h2]
    rfl
  have hlen2 : (counts.zip vecs).length = questions.length := by
    simp [List.length_zip, hclen, hvlen]
  have hmapfst : (questions.zip (counts.zip vecs)).map Prod.fst = questions :=
    List.map_fst_zip _ _ (le_of_eq hlen2.symm)
  have hmapcnt : (questions.zip (counts.zip vecs)).map (fun it => it.2.1) = counts := by
    have hsnd : (questions.zip (counts.zip vecs)).map Prod.snd = counts.zip vecs :=
      List.map_snd_zip _ _ (le_of_eq hlen2)
    have hcomp : (questions.zip (counts.zip vecs)).map (fun it => it.2.1) =
        ((questions.zip (counts.zip vecs)).map Prod.snd).map Prod.fst := by
      rw [List.map_map]
      rfl
    rw [hcomp, hsnd]
    exact List.map_fst_zip _ _ (le_of_eq (by rw [hclen, hvlen]))
  have hemb : cluster_using_embeddings sim thE questions counts vecs =
      ((((questions.zip (counts.zip vecs)).mergeSort (fun a b => b.2.1 ≤ a.2.1)).foldl
          (fun cls item => assignEmb sim thE item.1 item.2.1 item.2.2 cls) []).map
        (fun c => c.out)).mergeSort (fun a b => b.total_count ≤ a.total_count) := by
    unfold cluster_using_embeddings
    rw [if_neg (by rw [hguard]; simp)]
  refine ⟨?_, ?_, ?_, ?_⟩
  · rw [hemb]
    refine (flatMap_mergeSort_perm _ _ _).trans ?_
    rw [flatMap_out_variants]
    refine (embFold_variants_perm sim thE _ []).trans ?_
    simp only [List.flatMap_nil, List.append_nil]
    refine (map_mergeSort_perm _ _ _).trans ?_
    rw [hmapfst]
  · rw [hemb]
    rw [sum_map_mergeSort]
    rw [List.map_map]
    have hco : ((fun c : ClusterOut => c.total_count) ∘ fun c : EmbCluster => c.out) =
        fun c : EmbCluster => c.out.total_count := rfl
    rw [hco, embFold_total_sum]
    have hsorted := sum_map_mergeSort (questions.zip (counts.zip vecs))
      (fun a b => b.2.1 ≤ a.2.1) (fun it => it.2.1)
    rw [hsorted, hmapcnt]
    simp
  · show ((((items.foldl (fun cls it => assignFuzzy score thF it.1 it.2 cls) []).mergeSort
        (fun a b => b.total_count ≤ a.total_count)).flatMap
          (fun c => c.variants)).Perm (items.map Prod.fst))
    refine (flatMap_mergeSort_perm _ _ _).trans ?_
    refine (fuzzyFold_variants_perm score thF _ []).trans ?_
    simp
  · show (((items.foldl (fun cls it => assignFuzzy score thF it.1 it.2 cls) []).mergeSort
        (fun a b => b.total_count ≤ a.total_count)).map
          (fun c => c.total_count)).sum = (items.map Prod.snd).sum
    rw [sum_map_mergeSort]
    rw [fuzzyFold_total_sum]
    simp

/-- Claim C10 witness: a concrete three-question instance. -/
theorem clustering_conserves_questions_and_counts_witness :
    (([[1], [2], [3]] : List (List ℚ)) ≠ []) ∧
    ([[1], [2], [3]] : List (List ℚ)).length = ["a", "b", "c"].length ∧
    ([4, 1, 2] : List Nat).length = ["a", "b", "c"].length ∧
    (((cluster_using_embeddings (fun _ _ => 1) (78/100) ["a", "b", "c"] [4, 1, 2]
        [[1], [2], [3]]).flatMap (fun c => c.variants)).Perm ["a", "b", "c"] ∧
     ((cluster_using_embeddings (fun _ _ => 1) (78/100) ["a", "b", "c"] [4, 1, 2]
        [[1], [2], [3]]).map (fun c => c.total_count)).sum = ([4, 1, 2] : List Nat).sum ∧
     ((cluster_using_fuzzy (fun _ _ => 0) (72/100) [("x", 3), ("y", 5)] none).flatMap
        (fun c => c.variants)).Perm ([("x", 3), ("y", 5)].map Prod.fst) ∧
     ((cluster_using_fuzzy (fun _ _ => 0) (72/100) [("x", 3), ("y", 5)] none).map
        (fun c => c.total_count)).sum = ([("x", 3), ("y", 5)].map Prod.snd).sum) :=
  ⟨by decide, by decide, by decide,
   clustering_conserves_questions_and_counts (fun _ _ => 1) (fun _ _ => 0) (78/100) (72/100)
     ["a", "b", "c"] [4, 1, 2] [[1], [2], [3]] [("x", 3), ("y", 5)]
     (by decide) (by decide) (by decide)⟩

end Kuboid

